import Mathlib

/-!
Shallow embedding of the Notebook-Translate extension (TypeScript sources)
for verification of its specification.

The embedding covers:
* `src/profileManager.ts` — the `ProfileManager` class (profiles stored in
  the host configuration, secrets in a separate secret store, previous-name
  marker in global state), modelled as explicit state passing over `PMState`.
* `src/translator.ts` — `cleanThinkTags`, the content-extraction logic of
  `OpenAITranslator.translate` / `OllamaTranslator.translate`, and
  `BaiduTranslator.waitForRateLimit` (time passed explicitly, with an ideal
  clock: `sleep(ms)` advances wall time by exactly `ms`).
* `src/utils.ts` — `hasChinese`.
* the per-cell loop of `translateNotebookMarkdown` in `src/extension.ts`,
  modelled with explicit traces of backend and cache accesses.

JavaScript runtime objects are modelled as flat records with `Option` fields
(`none` = field absent / `undefined`); JS string falsiness (`''` is falsy) is
modelled by explicit comparison with `""`.  `String.prototype.trim` is
modelled as dropping ASCII whitespace from both ends of the character list.
-/

namespace NotebookTranslate

/-- A `TranslatorProfile` runtime object (`src/types.ts`).  The TS type is a
tagged union (`OpenAIProfile | OllamaProfile | BaiduProfile`), but at runtime
a profile is a plain object that may carry any subset of the fields; fields
not present are `none`. -/
structure TranslatorProfile where
  name : String
  provider : String
  apiKey : Option String := none
  secretKey : Option String := none
  baseUrl : Option String := none
  model : Option String := none
  endpoint : Option String := none
  appId : Option String := none
  customPrompt : Option String := none
deriving DecidableEq, Repr

/-- `DEFAULT_PROFILES` from `profileManager.ts`. -/
def DEFAULT_PROFILES : List TranslatorProfile :=
  [{ name := "Mock (测试用)", provider := "openai",
     baseUrl := some "", apiKey := some "", model := some "" }]

/-- The state a `ProfileManager` instance reads and writes:
`ipynbTranslator.profiles` and `ipynbTranslator.activeProfile` in the host
configuration, the `previousProfileName` entry of the global state, and the
host `SecretStorage` (an association list from key name to secret). -/
structure PMState where
  profiles : List TranslatorProfile
  activeProfile : String
  previousProfileName : Option String
  secrets : List (String × String)
deriving DecidableEq, Repr

/-- `ProfileManager.getProfiles`: the stored list when non-empty, else the
built-in default list. -/
def getProfiles (s : PMState) : List TranslatorProfile :=
  if s.profiles.length > 0 then s.profiles else DEFAULT_PROFILES

/-- `ProfileManager.getActiveProfileName`: the stored pointer, `""` when
unset (the TS default). -/
def getActiveProfileName (s : PMState) : String :=
  s.activeProfile

/-- `ProfileManager.getActiveProfile`: resolve the active pointer against the
profile list, falling back to the first profile when the pointer is unset
(falsy) or matches no profile. -/
def getActiveProfile (s : PMState) : Option TranslatorProfile :=
  let profiles := getProfiles s
  let activeName := getActiveProfileName s
  if activeName = "" then
    profiles.head?
  else
    match profiles.find? (fun p => p.name == activeName) with
    | some p => some p
    | none => profiles.head?

/-- `ProfileManager.setActiveProfile`: record the current active name as
`previousProfileName` when it is truthy (non-empty) and different from
`name`, then update the active pointer. -/
def setActiveProfile (name : String) (s : PMState) : PMState :=
  let current := getActiveProfileName s
  let s₁ :=
    if current ≠ "" ∧ current ≠ name then
      { s with previousProfileName := some current }
    else s
  { s₁ with activeProfile := name }

/-- Fallback branch of `ProfileManager.rollbackToPrevious`: when there is no
usable previous marker, activate the first profile — but only when its name
differs from the current active name — else return `null` (`none`). -/
def rollbackFallback (s : PMState) : Option String × PMState :=
  match getProfiles s with
  | [] => (none, s)
  | p :: _ =>
      if p.name ≠ getActiveProfileName s then
        (some p.name, setActiveProfile p.name s)
      else
        (none, s)

/-- `ProfileManager.rollbackToPrevious`: activate the previous-marker profile
when the marker is truthy and still names a stored profile; otherwise fall
back (see `rollbackFallback`). -/
def rollbackToPrevious (s : PMState) : Option String × PMState :=
  let profiles := getProfiles s
  match s.previousProfileName with
  | some prev =>
      if prev ≠ "" ∧ profiles.any (fun p => p.name == prev) then
        (some prev, setActiveProfile prev s)
      else
        rollbackFallback s
  | none => rollbackFallback s

/-- `ProfileManager.stripKeys`: delete `apiKey` when the provider is
`openai`, delete `secretKey` when the provider is `baidu`, otherwise leave
the record untouched. -/
def stripKeys (p : TranslatorProfile) : TranslatorProfile :=
  if p.provider = "openai" then { p with apiKey := none }
  else if p.provider = "baidu" then { p with secretKey := none }
  else p

/-- `ProfileManager.addProfile`: reject a duplicate name, strip secret
fields from a copy, and persist the list with the stripped copy appended.
The secret store is not touched. -/
def addProfile (p : TranslatorProfile) (s : PMState) : Except String PMState :=
  let profiles := getProfiles s
  if profiles.any (fun q => q.name == p.name) then
    .error ("配置名称 \"" ++ p.name ++ "\" 已存在")
  else
    .ok { s with profiles := profiles ++ [stripKeys p] }

/-- A `Partial<TranslatorProfile>` argument of `updateProfile`: fields that
are `none` are absent from the update object. -/
structure ProfileUpdate where
  name : Option String := none
  provider : Option String := none
  apiKey : Option String := none
  secretKey : Option String := none
  baseUrl : Option String := none
  model : Option String := none
  endpoint : Option String := none
  appId : Option String := none
  customPrompt : Option String := none
deriving DecidableEq, Repr

/-- The object spread `{ ...old, ...upd }`: a field present in the update
overrides the stored one. -/
def mergeProfile (old : TranslatorProfile) (upd : ProfileUpdate) : TranslatorProfile :=
  { name := upd.name.getD old.name
    provider := upd.provider.getD old.provider
    apiKey := upd.apiKey <|> old.apiKey
    secretKey := upd.secretKey <|> old.secretKey
    baseUrl := upd.baseUrl <|> old.baseUrl
    model := upd.model <|> old.model
    endpoint := upd.endpoint <|> old.endpoint
    appId := upd.appId <|> old.appId
    customPrompt := upd.customPrompt <|> old.customPrompt }

/-- `ProfileManager.updateProfile`: fail when the name is absent, else merge
the updates into the stored record, strip secret fields, and persist. -/
def updateProfile (name : String) (upd : ProfileUpdate) (s : PMState) :
    Except String PMState :=
  let profiles := getProfiles s
  match profiles.findIdx? (fun p => p.name == name) with
  | none => .error ("配置 \"" ++ name ++ "\" 不存在")
  | some i =>
      match profiles.get? i with
      | none => .error ("配置 \"" ++ name ++ "\" 不存在")
      | some old =>
          .ok { s with profiles := profiles.set i (stripKeys (mergeProfile old upd)) }

/-- The `SecretStorage` key used for a profile (`ipynb-translator.key.` ++
profile name). -/
def keyName (profileName : String) : String :=
  "ipynb-translator.key." ++ profileName

/-- `ProfileManager.getApiKey`: read the secret stored for the profile. -/
def getApiKey (profileName : String) (s : PMState) : Option String :=
  (s.secrets.find? (fun kv => kv.1 == keyName profileName)).map (·.2)

/-- `ProfileManager.setApiKey`: store (overwrite) the secret for a profile. -/
def setApiKey (profileName : String) (key : String) (s : PMState) : PMState :=
  { s with secrets :=
      (keyName profileName, key) :: s.secrets.filter (fun kv => kv.1 ≠ keyName profileName) }

/-- `ProfileManager.deleteApiKey`: delete the secret for a profile.
`SecretStorage.delete` never fails, also when no entry exists. -/
def deleteApiKey (profileName : String) (s : PMState) : PMState :=
  { s with secrets := s.secrets.filter (fun kv => kv.1 ≠ keyName profileName) }

/-- `ProfileManager.deleteProfile`: fail when no profile of that name is
listed; else persist the filtered list, unconditionally delete the secret,
and, when the deleted profile was the active one **and** at least one profile
remains, activate the first remaining profile.  (There is no else branch:
when the filtered list is empty the active pointer is left untouched.) -/
def deleteProfile (name : String) (s : PMState) : Except String PMState :=
  let profiles := getProfiles s
  let filtered := profiles.filter (fun p => p.name ≠ name)
  if filtered.length = profiles.length then
    .error ("配置 \"" ++ name ++ "\" 不存在")
  else
    let s₁ := { s with profiles := filtered }
    let s₂ := deleteApiKey name s₁
    let s₃ :=
      match filtered with
      | first :: _ =>
          if getActiveProfileName s₂ = name then setActiveProfile first.name s₂ else s₂
      | [] => s₂
    .ok s₃

/-- An operation on the profile store, for stating invariants over call
sequences. -/
inductive PMOp where
  | add (p : TranslatorProfile)
  | del (name : String)
  | setActive (name : String)
deriving DecidableEq, Repr

/-- Run one operation; a thrown error (`Except.error`) leaves the state
unchanged, since the TS methods throw before any write. -/
def runOp (s : PMState) : PMOp → PMState
  | .add p => match addProfile p s with | .ok s' => s' | .error _ => s
  | .del name => match deleteProfile name s with | .ok s' => s' | .error _ => s
  | .setActive name => setActiveProfile name s

/-- Run a sequence of operations. -/
def runOps (ops : List PMOp) (s : PMState) : PMState :=
  ops.foldl runOp s

/-!
## `src/translator.ts` — the reasoning-output cleaner

`cleanThinkTags(text)` is
`text.replace(/<think>[\s\S]*?<\/think>/gi, '').trim()`:
scan left to right; at each position try to match the literal `<think>`
case-insensitively; on a hit, take the lazy body up to the **earliest**
following `</think>`; remove the whole segment and continue scanning after
it; when `<think>` matches but no `</think>` follows, the match attempt at
this position fails and scanning advances one character.  Finally trim
whitespace from both ends.
-/

/-- Whitespace as dropped by `String.prototype.trim`, restricted to the
ASCII whitespace characters (the only ones the development uses). -/
def jsWs (c : Char) : Bool :=
  c = ' ' ∨ c = '\t' ∨ c = '\n' ∨ c = '\r'

/-- Drop `jsWs` characters from both ends: the embedding of
`String.prototype.trim` on character lists. -/
def trimChars (l : List Char) : List Char :=
  ((l.dropWhile jsWs).reverse.dropWhile jsWs).reverse

/-- The embedding of `String.prototype.trim`. -/
def jsTrim (s : String) : String :=
  (trimChars s.data).asString

/-- Case-insensitive literal-tag matching: when `s` starts with `tag` up to
ASCII case, return the rest of `s`. -/
def stripTagCI : List Char → List Char → Option (List Char)
  | [], s => some s
  | _ :: _, [] => none
  | t :: ts, c :: cs => if c.toLower = t.toLower then stripTagCI ts cs else none

/-- The characters of `<think>`. -/
def openTag : List Char := "<think>".data

/-- The characters of `</think>`. -/
def closeTag : List Char := "</think>".data

/-- Find the earliest case-insensitive occurrence of `</think>` in `l`
(the lazy `[\s\S]*?` body) and return what follows it. -/
def findCloseTag : List Char → Option (List Char)
  | [] => none
  | c :: cs =>
      match stripTagCI closeTag (c :: cs) with
      | some rest => some rest
      | none => findCloseTag cs

/-- One pass of `replace(/<think>[\s\S]*?<\/think>/gi, '')`, with explicit
fuel (any fuel above the list length computes the full pass). -/
def removeThinkAux : Nat → List Char → List Char
  | 0, l => l
  | _ + 1, [] => []
  | fuel + 1, c :: cs =>
      match stripTagCI openTag (c :: cs) with
      | some afterOpen =>
          match findCloseTag afterOpen with
          | some afterClose => removeThinkAux fuel afterClose
          | none => c :: removeThinkAux fuel cs
      | none => c :: removeThinkAux fuel cs

/-- The global regex replacement on a character list. -/
def removeThink (l : List Char) : List Char :=
  removeThinkAux (l.length + 1) l

/-- `cleanThinkTags` from `src/translator.ts`: remove every non-overlapping
case-insensitive `<think>...</think>` segment, then trim. -/
def cleanThinkTags (text : String) : String :=
  (trimChars (removeThink text.data)).asString

/-- Whether the cleaner's regex matches anywhere in `l`: some position
starts a case-insensitive `<think>` with a later `</think>`. -/
def hasThinkSegment : List Char → Bool
  | [] => false
  | c :: cs =>
      (match stripTagCI openTag (c :: cs) with
       | some afterOpen => (findCloseTag afterOpen).isSome
       | none => false)
      || hasThinkSegment cs

/-!
## `src/translator.ts` — response-content handling

`OpenAITranslator.translate` extracts `choices[0].message.content` and
`OllamaTranslator.translate` extracts `message.content`; both then apply the
same cleaning check.  The network layer and JSON parsing are outside the
embedding: the functions below start from the extracted content.
-/

/-- The content handling of `OpenAITranslator.translate` once
`choices[0].message` exists: `content` is `message.content`, `none` when the
field is null/absent (JS falsy, as is `""`). -/
def openAIHandleContent (content : Option String) : Except String String :=
  match content with
  | none => .ok ""
  | some c =>
      if c = "" then .ok ""
      else
        let cleaned := cleanThinkTags c
        if cleaned = "" ∧ jsTrim c ≠ "" then
          .error "Translation Empty (Reasoning only)"
        else
          .ok cleaned

/-- The content handling of `OllamaTranslator.translate`: the guard
`data.message && data.message.content` requires a truthy (non-empty)
content, else the invalid-format error is raised; afterwards the cleaning
check is identical to the OpenAI one. -/
def ollamaHandleContent (content : String) : Except String String :=
  if content = "" then
    .error "Invalid response format from Ollama API"
  else
    let cleaned := cleanThinkTags content
    if cleaned = "" ∧ jsTrim content ≠ "" then
      .error "Translation Empty (Reasoning only)"
    else
      .ok cleaned

/-!
## `src/translator.ts` — `BaiduTranslator` rate limiting

Time is passed explicitly.  `waitForRateLimit` reads `Date.now()`, sleeps
when the elapsed time since `lastRequestTime` is below `minInterval`, and
records the new `Date.now()` as `lastRequestTime` — the moment the request
is issued.  The clock is ideal: `sleep(ms)` advances wall time by exactly
`ms` and no time passes between adjacent statements.
-/

/-- `BaiduTranslator.minInterval` (milliseconds). -/
def minInterval : Nat := 1100

/-- The `lastRequestTime` field of a `BaiduTranslator` instance (0 at
construction). -/
structure RateLimiterState where
  lastRequestTime : Nat
deriving DecidableEq, Repr

/-- `BaiduTranslator.waitForRateLimit` at wall-clock time `now`: returns the
time at which the request is issued (= the new `lastRequestTime`) and the
updated instance state. -/
def waitForRateLimit (now : Nat) (s : RateLimiterState) : Nat × RateLimiterState :=
  let elapsed := now - s.lastRequestTime
  let issueTime := if elapsed < minInterval then now + (minInterval - elapsed) else now
  (issueTime, ⟨issueTime⟩)

/-!
## `src/utils.ts` and the per-cell loop of `translateNotebookMarkdown`
-/

/-- `hasChinese` from `src/utils.ts`: `/[一-龥]/.test(text)`. -/
def hasChinese (text : String) : Bool :=
  text.data.any (fun c => 0x4e00 ≤ c.toNat ∧ c.toNat ≤ 0x9fa5)

/-- The state threaded through the per-cell loop of
`translateNotebookMarkdown`: the translation cache (keyed here by the exact
source text — the TS cache keys by a deterministic MD5 of the text, so equal
texts hit the same entry), the three counters, and observation traces of
every text handed to `cache.get` and to `translator.translate`. -/
structure OrchState where
  cache : List (String × String)
  translatedCount : Nat
  skippedCount : Nat
  cachedCount : Nat
  cacheGets : List String
  backendCalls : List String
deriving DecidableEq, Repr

/-- `cache.get` (lookup only; the trace is recorded by the loop). -/
def cacheLookup (cache : List (String × String)) (text : String) : Option String :=
  (cache.find? (fun kv => kv.1 == text)).map (·.2)

/-- One iteration of the cell loop (steps 7–9 of
`translateNotebookMarkdown`): skip cells containing Chinese, skip
blank cells, else consult the cache and on a miss call the backend and store
the result.  The backend is a pure function here (the success path of
`translator.translate`). -/
def processCell (backend : String → String) (s : OrchState) (cellText : String) :
    OrchState :=
  if hasChinese cellText then
    { s with skippedCount := s.skippedCount + 1 }
  else if jsTrim cellText = "" then
    { s with skippedCount := s.skippedCount + 1 }
  else
    let s₁ := { s with cacheGets := s.cacheGets ++ [cellText] }
    match cacheLookup s₁.cache cellText with
    | some _ => { s₁ with cachedCount := s₁.cachedCount + 1 }
    | none =>
        let translated := backend cellText
        { s₁ with
            backendCalls := s₁.backendCalls ++ [cellText]
            cache := (cellText, translated) :: s₁.cache
            translatedCount := s₁.translatedCount + 1 }

/-- The whole loop over the markdown cells. -/
def processCells (backend : String → String) (s : OrchState) (cells : List String) :
    OrchState :=
  cells.foldl (processCell backend) s

/-- Decidable equality for `Except`, needed to evaluate the fallible
profile-manager operations on concrete states. -/
instance {ε α : Type} [DecidableEq ε] [DecidableEq α] : DecidableEq (Except ε α) := by
  intro x y
  cases x <;> cases y
  case error.error e f =>
    exact if h : e = f then .isTrue (by rw [h]) else .isFalse (fun hc => h (by cases hc; rfl))
  case error.ok _ _ => exact .isFalse (fun hc => by cases hc)
  case ok.error _ _ => exact .isFalse (fun hc => by cases hc)
  case ok.ok a b =>
    exact if h : a = b then .isTrue (by rw [h]) else .isFalse (fun hc => h (by cases hc; rfl))

/-!
## Concrete states used by counterexamples and witnesses
-/

/-- Witness state for the active-profile invariant: an empty store. -/
def c1wState : PMState :=
  { profiles := [], activeProfile := "", previousProfileName := none, secrets := [] }

/-- A profile named `A` (provider `ollama`, no secret fields involved). -/
def profileA : TranslatorProfile :=
  { name := "A", provider := "ollama", endpoint := some "http://localhost:11434",
    model := some "llama3" }

/-- A profile named `B`. -/
def profileB : TranslatorProfile :=
  { name := "B", provider := "ollama", endpoint := some "http://localhost:11434",
    model := some "mistral" }

/-- Counterexample state for rollback: one stored profile `A`, active pointer
`A`, no previous marker. -/
def c2cexState : PMState :=
  { profiles := [profileA], activeProfile := "A", previousProfileName := none, secrets := [] }

/-- Witness state for the rollback scenario: stored profiles `A` and `B`,
`A` active. -/
def c2wState : PMState :=
  { profiles := [profileA, profileB], activeProfile := "A", previousProfileName := none,
    secrets := [] }

/-- An `openai` profile carrying an inline `apiKey`. -/
def c3cexProfile : TranslatorProfile :=
  { name := "P", provider := "openai", apiKey := some "K",
    baseUrl := some "https://api.example.com/v1", model := some "m" }

/-- Counterexample state for secret isolation: empty store, empty secret
storage. -/
def c3cexState : PMState :=
  { profiles := [], activeProfile := "", previousProfileName := none, secrets := [] }

/-- The state `addProfile c3cexProfile c3cexState` produces: the default
list (the store was empty) with the stripped profile appended; the secret
store still empty. -/
def c3cexResult : PMState :=
  { profiles := DEFAULT_PROFILES ++
      [{ name := "P", provider := "openai", apiKey := none,
         baseUrl := some "https://api.example.com/v1", model := some "m" }],
    activeProfile := "", previousProfileName := none, secrets := [] }

/-- Counterexample state for deletion: the active profile `A` is the only
stored profile and has a stored secret. -/
def c4cexState : PMState :=
  { profiles := [profileA], activeProfile := "A", previousProfileName := none,
    secrets := [(keyName "A", "sec")] }

/-- The state `deleteProfile "A" c4cexState` produces: no stored profiles,
secret deleted, and the active pointer still naming the deleted profile. -/
def c4cexResult : PMState :=
  { profiles := [], activeProfile := "A", previousProfileName := none, secrets := [] }

/-- Counterexample state for the previous-marker update: profile `B` stored,
active pointer unset (`""`). -/
def c5cexState : PMState :=
  { profiles := [profileB], activeProfile := "", previousProfileName := none, secrets := [] }

/-- Witness state for deletion: profiles `A` (active, with a stored secret)
and `B`. -/
def c4wState : PMState :=
  { profiles := [profileA, profileB], activeProfile := "A", previousProfileName := none,
    secrets := [(keyName "A", "sA")] }

/-- The state `deleteProfile "A" c4wState` produces: `B` remains and becomes
active, `A` recorded as previous, secret gone. -/
def c4wResult : PMState :=
  { profiles := [profileB], activeProfile := "B", previousProfileName := some "A",
    secrets := [] }

/-- An `ollama` profile carrying both stray secret fields: `stripKeys` must
leave it untouched. -/
def c10profile : TranslatorProfile :=
  { name := "O", provider := "ollama", apiKey := some "K1", secretKey := some "K2",
    endpoint := some "http://localhost:11434", model := some "llama3" }

/-- An empty update object (`{}`). -/
def c10upd : ProfileUpdate := {}

/-- Witness state for C10: the `ollama` profile stored alone. -/
def c10state : PMState :=
  { profiles := [c10profile], activeProfile := "O", previousProfileName := none, secrets := [] }

/-- The text unit used against the skip rule: the single character U+9FA6,
which lies in the CJK Unified Ideographs block (U+4E00–U+9FFF) but outside
the range `hasChinese` tests (U+4E00–U+9FA5). -/
def c9text : String := String.mk [Char.ofNat 0x9FA6]

/-- The initial orchestrator state: empty cache, zero counters, empty
traces. -/
def c9init : OrchState :=
  { cache := [], translatedCount := 0, skippedCount := 0, cachedCount := 0,
    cacheGets := [], backendCalls := [] }

/-!
## Helper lemmas about the profile manager
-/

lemma setActiveProfile_profiles (n : String) (s : PMState) :
    (setActiveProfile n s).profiles = s.profiles := by
  simp only [setActiveProfile, getActiveProfileName]
  split <;> rfl

lemma setActiveProfile_activeProfile (n : String) (s : PMState) :
    (setActiveProfile n s).activeProfile = n :=
  rfl

lemma setActiveProfile_secrets (n : String) (s : PMState) :
    (setActiveProfile n s).secrets = s.secrets := by
  simp only [setActiveProfile, getActiveProfileName]
  split <;> rfl

lemma setActiveProfile_previousProfileName (n : String) (s : PMState) :
    (setActiveProfile n s).previousProfileName =
      if s.activeProfile ≠ "" ∧ s.activeProfile ≠ n then some s.activeProfile
      else s.previousProfileName := by
  simp only [setActiveProfile, getActiveProfileName]
  split <;> rfl

lemma getProfiles_ne_nil (s : PMState) : getProfiles s ≠ [] := by
  unfold getProfiles
  split
  · rename_i h
    intro hnil
    rw [hnil] at h
    simp at h
  · intro h
    simp [DEFAULT_PROFILES] at h

lemma getProfiles_setActiveProfile (n : String) (s : PMState) :
    getProfiles (setActiveProfile n s) = getProfiles s := by
  unfold getProfiles
  rw [setActiveProfile_profiles]

/-- `getActiveProfile` on an arbitrary state: it always returns some profile
of the current list, and whenever the pointer is unset or matches no listed
profile, it returns the first listed profile. -/
lemma getActiveProfile_spec (s : PMState) :
    ∃ p, getActiveProfile s = some p ∧ p ∈ getProfiles s ∧
      ((getActiveProfileName s = "" ∨
        (getProfiles s).find? (fun q => q.name == getActiveProfileName s) = none) →
        (getProfiles s).head? = some p) := by
  have hne := getProfiles_ne_nil s
  by_cases hname : getActiveProfileName s = ""
  · refine ⟨(getProfiles s).head hne, ?_, List.head_mem hne, ?_⟩
    · simp only [getActiveProfile, hname, if_pos]
      exact List.head?_eq_head hne
    · intro _
      exact List.head?_eq_head hne
  · cases hfind : (getProfiles s).find? (fun q => q.name == getActiveProfileName s) with
    | some p =>
        refine ⟨p, ?_, List.mem_of_find?_eq_some hfind, ?_⟩
        · simp [getActiveProfile, hname, hfind]
        · intro h
          rcases h with h | h
          · exact absurd h hname
          · exact absurd h (by simp)
    | none =>
        refine ⟨(getProfiles s).head hne, ?_, List.head_mem hne, ?_⟩
        · simp only [getActiveProfile, hname, if_neg, hfind]
          exact List.head?_eq_head hne
        · intro _
          exact List.head?_eq_head hne

/-- **C1.**  For every sequence of `addProfile` / `deleteProfile` /
`setActiveProfile` calls starting from any profile-store state,
`getActiveProfile` returns a profile (never `undefined`, never a thrown
error) that is an element of the list returned by `getProfiles`, and it is
the first listed profile whenever the active pointer is unset or names no
existing profile. -/
theorem c1_active_profile_invariant (ops : List PMOp) (s₀ : PMState) :
    ∃ p, getActiveProfile (runOps ops s₀) = some p ∧
      p ∈ getProfiles (runOps ops s₀) ∧
      ((getActiveProfileName (runOps ops s₀) = "" ∨
        (getProfiles (runOps ops s₀)).find?
          (fun q => q.name == getActiveProfileName (runOps ops s₀)) = none) →
        (getProfiles (runOps ops s₀)).head? = some p) :=
  getActiveProfile_spec (runOps ops s₀)

/-- Witness for C1: a concrete run that leaves the active pointer naming a
profile that does not exist. -/
theorem c1_active_profile_invariant_witness :
    ∃ p, getActiveProfile (runOps [PMOp.setActive "ghost"] c1wState) = some p ∧
      p ∈ getProfiles (runOps [PMOp.setActive "ghost"] c1wState) ∧
      ((getActiveProfileName (runOps [PMOp.setActive "ghost"] c1wState) = "" ∨
        (getProfiles (runOps [PMOp.setActive "ghost"] c1wState)).find?
          (fun q => q.name == getActiveProfileName (runOps [PMOp.setActive "ghost"] c1wState)) =
          none) →
        (getProfiles (runOps [PMOp.setActive "ghost"] c1wState)).head? = some p) :=
  c1_active_profile_invariant [PMOp.setActive "ghost"] c1wState

/-- **C5 counterexample.**  With the active pointer unset (`""`) and a
switch to `"B"`, the currently active name (`""`) differs from `"B"`, yet
the previous-profile marker is not updated (the guard `current &&
current !== name` also requires truthiness). -/
theorem c5_counterexample :
    getActiveProfileName c5cexState = "" ∧
    getActiveProfileName c5cexState ≠ "B" ∧
    (setActiveProfile "B" c5cexState).previousProfileName = none ∧
    (setActiveProfile "B" c5cexState).previousProfileName ≠
      some (getActiveProfileName c5cexState) := by
  decide

/-- **C5 (amended).**  `setActiveProfile name` updates the previous-profile
marker to the currently active name exactly when that name is non-empty and
differs from `name`; otherwise (a no-op switch, or an unset pointer) the
marker is left unchanged.  The active pointer is then set to `name`. -/
theorem c5_previous_marker_amended (name : String) (s : PMState) :
    (setActiveProfile name s).previousProfileName =
      (if getActiveProfileName s ≠ "" ∧ getActiveProfileName s ≠ name
       then some (getActiveProfileName s)
       else s.previousProfileName) ∧
    (setActiveProfile name s).activeProfile = name :=
  ⟨setActiveProfile_previousProfileName name s, setActiveProfile_activeProfile name s⟩

/-- **C8.**  Consecutive `translate` calls of the same `BaiduTranslator`
instance: when the second call reaches `waitForRateLimit` at any wall-clock
time `now₂` not before the first request was issued, the second request is
issued at least `minInterval` (1100 ms) after the first; moreover the wait
is exactly the remainder of the interval (no wait when the interval has
already elapsed). -/
theorem c8_rate_limit (s : RateLimiterState) (now₁ now₂ : Nat)
    (h : (waitForRateLimit now₁ s).1 ≤ now₂) :
    (waitForRateLimit now₁ s).1 + minInterval ≤
      (waitForRateLimit now₂ (waitForRateLimit now₁ s).2).1 ∧
    (waitForRateLimit now₂ (waitForRateLimit now₁ s).2).1 =
      (if now₂ - (waitForRateLimit now₁ s).1 < minInterval
       then now₂ + (minInterval - (now₂ - (waitForRateLimit now₁ s).1))
       else now₂) := by
  have hfst : ∀ (now : Nat) (t : RateLimiterState),
      (waitForRateLimit now t).1 =
        if now - t.lastRequestTime < minInterval
        then now + (minInterval - (now - t.lastRequestTime)) else now := fun _ _ => rfl
  have hsnd : ∀ (now : Nat) (t : RateLimiterState),
      (waitForRateLimit now t).2.lastRequestTime = (waitForRateLimit now t).1 :=
    fun _ _ => rfl
  constructor
  · rw [hfst now₂, hsnd]
    simp only [minInterval] at *
    split <;> omega
  · rw [hfst now₂, hsnd]

/-- **C2 counterexample.**  One stored profile `A`, active, no previous
marker: a profile exists, yet `rollbackToPrevious` returns `null` (`none`)
and changes nothing, where the claim says the first profile is activated
and its name returned. -/
theorem c2_counterexample :
    rollbackToPrevious c2cexState = (none, c2cexState) ∧
    c2cexState.previousProfileName = none ∧
    getProfiles c2cexState = [profileA] := by
  decide

/-- **C2 (amended).**  With distinct stored profiles `A` (active, non-empty
name) and `B`, `setActiveProfile "B"` followed by `rollbackToPrevious`
reactivates `A` and returns `"A"`.  In general, when the previous marker is
unset, empty, or names no stored profile, `rollbackToPrevious` activates the
first profile and returns its name **only when the first profile's name
differs from the current active name**; otherwise it returns `null` and
leaves the state unchanged. -/
theorem c2_rollback_amended :
    (∀ (s : PMState) (a b : TranslatorProfile),
      a ∈ getProfiles s → b ∈ getProfiles s → a.name ≠ "" → a.name ≠ b.name →
      getActiveProfileName s = a.name →
      (rollbackToPrevious (setActiveProfile b.name s)).1 = some a.name ∧
      getActiveProfileName (rollbackToPrevious (setActiveProfile b.name s)).2 = a.name) ∧
    (∀ (s : PMState) (p : TranslatorProfile) (rest : List TranslatorProfile),
      getProfiles s = p :: rest →
      (∀ prev, s.previousProfileName = some prev →
        prev = "" ∨ ∀ q ∈ getProfiles s, q.name ≠ prev) →
      rollbackToPrevious s =
        (if p.name ≠ getActiveProfileName s
         then (some p.name, setActiveProfile p.name s)
         else (none, s))) := by
  constructor
  · intro s a b ha _hb hane hab hactive
    simp only [getActiveProfileName] at hactive
    have hprev : (setActiveProfile b.name s).previousProfileName = some a.name := by
      rw [setActiveProfile_previousProfileName,
        if_pos ⟨by rw [hactive]; exact hane, by rw [hactive]; exact hab⟩, hactive]
    have hany : (getProfiles (setActiveProfile b.name s)).any
        (fun q => q.name == a.name) = true := by
      rw [getProfiles_setActiveProfile]
      exact List.any_eq_true.mpr ⟨a, ha, by simp⟩
    simp only [rollbackToPrevious, hprev]
    rw [if_pos ⟨hane, hany⟩]
    exact ⟨rfl, setActiveProfile_activeProfile _ _⟩
  · intro s p rest hps hstale
    have hfb : rollbackFallback s =
        (if p.name ≠ getActiveProfileName s
         then (some p.name, setActiveProfile p.name s)
         else (none, s)) := by
      unfold rollbackFallback
      rw [hps]
    cases hpv : s.previousProfileName with
    | none =>
        simp only [rollbackToPrevious, hpv]
        exact hfb
    | some prev =>
        have hcond : ¬(prev ≠ "" ∧ (getProfiles s).any (fun q => q.name == prev) = true) := by
          rintro ⟨h1, h2⟩
          rcases hstale prev hpv with h | h
          · exact h1 h
          · obtain ⟨q, hq, hqe⟩ := List.any_eq_true.mp h2
            exact h q hq (by simpa using hqe)
        simp only [rollbackToPrevious, hpv]
        rw [if_neg hcond]
        exact hfb

/-- Witness for C2 (amended): the `A`/`B` scenario on `c2wState` and the
fallback branch on `c2cexState`. -/
theorem c2_rollback_amended_witness :
    ((rollbackToPrevious (setActiveProfile profileB.name c2wState)).1 = some profileA.name ∧
     getActiveProfileName (rollbackToPrevious (setActiveProfile profileB.name c2wState)).2 =
       profileA.name) ∧
    rollbackToPrevious c2cexState =
      (if profileA.name ≠ getActiveProfileName c2cexState
       then (some profileA.name, setActiveProfile profileA.name c2cexState)
       else (none, c2cexState)) :=
  ⟨c2_rollback_amended.1 c2wState profileA profileB (by decide) (by decide) (by decide)
      (by decide) (by decide),
   c2_rollback_amended.2 c2cexState profileA [] (by decide)
      (fun prev h => by simp [c2cexState] at h)⟩

/-- **C3 counterexample.**  `addProfile` of an `openai` profile with inline
`apiKey "K"` persists the stripped record but stores nothing in the secret
store: `getApiKey "P"` afterwards returns `none`, not the original `"K"`. -/
theorem c3_counterexample :
    addProfile c3cexProfile c3cexState = .ok c3cexResult ∧
    c3cexProfile.apiKey = some "K" ∧
    getApiKey "P" c3cexResult = none ∧
    (getProfiles c3cexResult).all
      (fun q => !(q.name == "P") || (q.apiKey == none)) = true := by
  decide

/-- **C3 (amended).**  `addProfile p` fails with the duplicate-name error
when the name exists; on success it appends the stripped record (no
`apiKey` for an `openai` profile, no `secretKey` for a `baidu` profile,
for every listed record of that name) and leaves the secret store
untouched, so `getApiKey p.name` still returns whatever was stored before
(nothing, unless the caller separately invoked `setApiKey`). -/
theorem c3_secret_isolation_amended :
    ∀ (p : TranslatorProfile) (s : PMState),
      ((getProfiles s).any (fun q => q.name == p.name) = true →
        addProfile p s = .error ("配置名称 \"" ++ p.name ++ "\" 已存在")) ∧
      (∀ s', addProfile p s = .ok s' →
        s'.profiles = getProfiles s ++ [stripKeys p] ∧
        s'.secrets = s.secrets ∧
        getApiKey p.name s' = getApiKey p.name s ∧
        (p.provider = "openai" → ∀ q ∈ getProfiles s', q.name = p.name → q.apiKey = none) ∧
        (p.provider = "baidu" → ∀ q ∈ getProfiles s', q.name = p.name → q.secretKey = none)) := by
  intro p s
  constructor
  · intro hdup
    simp [addProfile, hdup]
  · intro s' hok
    have hdup : (getProfiles s).any (fun q => q.name == p.name) = false := by
      by_contra hc
      rw [Bool.not_eq_false] at hc
      simp [addProfile, hc] at hok
    have hs' : s' = { s with profiles := getProfiles s ++ [stripKeys p] } := by
      simp [addProfile, hdup] at hok
      exact hok.symm
    subst hs'
    have hgp : getProfiles { s with profiles := getProfiles s ++ [stripKeys p] } =
        getProfiles s ++ [stripKeys p] := by
      unfold getProfiles
      rw [if_pos]
      simp
    refine ⟨rfl, rfl, rfl, ?_, ?_⟩
    · intro hprov q hq hqname
      rw [hgp] at hq
      rcases List.mem_append.mp hq with hmem | hmem
      · have := List.any_eq_false.mp hdup q hmem
        simp at this
        exact absurd hqname this
      · have : q = stripKeys p := by simpa using hmem
        subst this
        simp [stripKeys, hprov]
    · intro hprov q hq hqname
      rw [hgp] at hq
      rcases List.mem_append.mp hq with hmem | hmem
      · have := List.any_eq_false.mp hdup q hmem
        simp at this
        exact absurd hqname this
      · have : q = stripKeys p := by simpa using hmem
        subst this
        simp [stripKeys, hprov]

/-- Witness for C3 (amended): the concrete `addProfile` run of the
counterexample state. -/
theorem c3_secret_isolation_amended_witness :
    c3cexResult.profiles = getProfiles c3cexState ++ [stripKeys c3cexProfile] ∧
    c3cexResult.secrets = c3cexState.secrets ∧
    getApiKey c3cexProfile.name c3cexResult = getApiKey c3cexProfile.name c3cexState ∧
    (c3cexProfile.provider = "openai" →
      ∀ q ∈ getProfiles c3cexResult, q.name = c3cexProfile.name → q.apiKey = none) ∧
    (c3cexProfile.provider = "baidu" →
      ∀ q ∈ getProfiles c3cexResult, q.name = c3cexProfile.name → q.secretKey = none) :=
  (c3_secret_isolation_amended c3cexProfile c3cexState).2 c3cexResult (by decide)

/-- **C10.**  Secret stripping is conditional on the provider tag:
`stripKeys` deletes `apiKey` only for provider `openai` and `secretKey`
only for provider `baidu`; for any other provider (e.g. `ollama`) the
record is untouched, and both `addProfile` and `updateProfile` persist it
with all its fields intact, embedded `apiKey`/`secretKey` included. -/
theorem c10_strip_conditional :
    ∀ (p : TranslatorProfile) (upd : ProfileUpdate) (s : PMState) (name : String),
      ((stripKeys p).apiKey = if p.provider = "openai" then none else p.apiKey) ∧
      ((stripKeys p).secretKey = if p.provider = "baidu" then none else p.secretKey) ∧
      (p.provider ≠ "openai" → p.provider ≠ "baidu" →
        stripKeys p = p ∧
        ((getProfiles s).any (fun q => q.name == p.name) = false →
          addProfile p s = .ok { s with profiles := getProfiles s ++ [p] })) ∧
      (∀ i old, (getProfiles s).findIdx? (fun q => q.name == name) = some i →
        (getProfiles s).get? i = some old →
        (mergeProfile old upd).provider ≠ "openai" →
        (mergeProfile old upd).provider ≠ "baidu" →
        updateProfile name upd s =
          .ok { s with profiles := (getProfiles s).set i (mergeProfile old upd) }) := by
  have hgen : ∀ q : TranslatorProfile, q.provider ≠ "openai" → q.provider ≠ "baidu" →
      stripKeys q = q := by
    intro q h1 h2
    simp [stripKeys, h1, h2]
  intro p upd s name
  refine ⟨?_, ?_, ?_, ?_⟩
  · simp only [stripKeys]
    split_ifs <;> simp_all
  · simp only [stripKeys]
    split_ifs <;> simp_all
  · intro h1 h2
    refine ⟨hgen p h1 h2, ?_⟩
    intro hdup
    simp only [addProfile, hdup]
    rw [hgen p h1 h2]
    simp
  · intro i old hidx hget h1 h2
    simp only [updateProfile, hidx, hget]
    rw [hgen _ h1 h2]

/-- Witness for C8: a first call at time 5000 from a fresh instance and a
second call at time 5100. -/
theorem c8_rate_limit_witness :
    (waitForRateLimit 5000 ⟨0⟩).1 + minInterval ≤
      (waitForRateLimit 5100 (waitForRateLimit 5000 ⟨0⟩).2).1 ∧
    (waitForRateLimit 5100 (waitForRateLimit 5000 ⟨0⟩).2).1 =
      (if 5100 - (waitForRateLimit 5000 ⟨0⟩).1 < minInterval
       then 5100 + (minInterval - (5100 - (waitForRateLimit 5000 ⟨0⟩).1))
       else 5100) :=
  c8_rate_limit ⟨0⟩ 5000 5100 (by decide)

/-- Witness for C10: on an `ollama` profile with stray `apiKey`/`secretKey`
fields, `stripKeys` is the identity and `updateProfile` persists the merged
record unchanged. -/
theorem c10_strip_conditional_witness :
    stripKeys c10profile = c10profile ∧
    updateProfile "O" c10upd c10state =
      .ok { c10state with
              profiles := (getProfiles c10state).set 0 (mergeProfile c10profile c10upd) } :=
  ⟨((c10_strip_conditional c10profile c10upd c10state "O").2.2.1 (by decide) (by decide)).1,
   (c10_strip_conditional c10profile c10upd c10state "O").2.2.2 0 c10profile
     (by decide) (by decide) (by decide) (by decide)⟩

/-- `SecretStorage.delete` followed by a lookup of the same key finds
nothing. -/
lemma find?_filter_keyName (name : String) (l : List (String × String)) :
    (l.filter (fun kv => kv.1 ≠ keyName name)).find? (fun kv => kv.1 == keyName name) =
      none := by
  rw [List.find?_eq_none]
  intro kv hkv
  have h := of_decide_eq_true (List.mem_filter.mp hkv).2
  simpa using h

lemma getApiKey_deleteApiKey (name : String) (s : PMState) :
    getApiKey name (deleteApiKey name s) = none := by
  simp only [getApiKey, deleteApiKey]
  rw [find?_filter_keyName]
  rfl

lemma getApiKey_setActiveProfile (n m : String) (s : PMState) :
    getApiKey n (setActiveProfile m s) = getApiKey n s := by
  simp only [getApiKey]
  rw [setActiveProfile_secrets]

/-- **C4 counterexample.**  Deleting the only profile, which is active: no
profile remains, yet the active pointer is **not** cleared — it still names
the deleted profile (there is no else branch clearing it). -/
theorem c4_counterexample :
    deleteProfile "A" c4cexState = .ok c4cexResult ∧
    getActiveProfileName c4cexState = "A" ∧
    c4cexResult.profiles = [] ∧
    c4cexResult.activeProfile = "A" ∧
    c4cexResult.activeProfile ≠ "" := by
  decide

/-- **C4 (amended).**  `deleteProfile name` fails with the not-found error
exactly when no listed profile has that name; on success it persists the
filtered list, unconditionally deletes the secret (no error when none
existed — `getApiKey name` finds nothing afterwards), and when the deleted
profile was the active one it activates the first remaining profile; when
no profile remains the active pointer is **left unchanged** (still naming
the deleted profile), not cleared. -/
theorem c4_delete_amended :
    ∀ (name : String) (s : PMState),
      (deleteProfile name s = .error ("配置 \"" ++ name ++ "\" 不存在") ↔
        (getProfiles s).all (fun p => p.name ≠ name) = true) ∧
      (∀ s', deleteProfile name s = .ok s' →
        s'.profiles = (getProfiles s).filter (fun p => p.name ≠ name) ∧
        s'.secrets = s.secrets.filter (fun kv => kv.1 ≠ keyName name) ∧
        getApiKey name s' = none ∧
        (getActiveProfileName s = name →
          (∀ first rest, s'.profiles = first :: rest → s'.activeProfile = first.name) ∧
          (s'.profiles = [] → s'.activeProfile = name)) ∧
        (getActiveProfileName s ≠ name → s'.activeProfile = getActiveProfileName s)) := by
  intro name s
  have hlen_iff : (((getProfiles s).filter (fun p => p.name ≠ name)).length =
      (getProfiles s).length) ↔ (getProfiles s).all (fun p => p.name ≠ name) = true := by
    rw [List.filter_length_eq_length, List.all_eq_true]
  constructor
  · constructor
    · intro herr
      by_cases hlen : ((getProfiles s).filter (fun p => p.name ≠ name)).length =
          (getProfiles s).length
      · exact hlen_iff.mp hlen
      · exfalso
        simp only [deleteProfile, if_neg hlen] at herr
        exact Except.noConfusion herr
    · intro hall
      simp only [deleteProfile]
      rw [if_pos (hlen_iff.mpr hall)]
  · intro s' hok
    by_cases hlen : ((getProfiles s).filter (fun p => p.name ≠ name)).length =
        (getProfiles s).length
    · exfalso
      simp only [deleteProfile] at hok
      rw [if_pos hlen] at hok
      exact Except.noConfusion hok
    · simp only [deleteProfile, if_neg hlen] at hok
      injection hok with hok
      subst hok
      cases hf : (getProfiles s).filter (fun p => p.name ≠ name) with
      | nil =>
          refine ⟨rfl, rfl, getApiKey_deleteApiKey name _, ?_, fun _ => rfl⟩
          intro hA
          refine ⟨fun f r h => ?_, fun _ => hA⟩
          exact List.noConfusion (show ([] : List TranslatorProfile) = f :: r from h)
      | cons first rest =>
          dsimp only
          split
          · rename_i hA'
            have hA : getActiveProfileName s = name := hA'
            refine ⟨?_, ?_, ?_, ?_, fun hne => absurd hA hne⟩
            · rw [setActiveProfile_profiles]
              rfl
            · rw [setActiveProfile_secrets]
              rfl
            · rw [getApiKey_setActiveProfile]
              exact getApiKey_deleteApiKey name _
            · intro _
              refine ⟨fun f r hfr => ?_, fun hnil => ?_⟩
              · rw [setActiveProfile_profiles] at hfr
                have hfr' : first :: rest = f :: r := hfr
                injection hfr' with h1 _
                rw [setActiveProfile_activeProfile, h1]
              · rw [setActiveProfile_profiles] at hnil
                exact List.noConfusion
                  (show first :: rest = ([] : List TranslatorProfile) from hnil)
          · rename_i hA'
            have hA : ¬ getActiveProfileName s = name := fun h => hA' h
            exact ⟨rfl, rfl, getApiKey_deleteApiKey name _, fun h => absurd h hA,
              fun _ => rfl⟩

/-- Witness for C4 (amended): deleting active profile `A` while `B` remains
switches activation to `B`. -/
theorem c4_delete_amended_witness :
    c4wResult.profiles = (getProfiles c4wState).filter (fun p => p.name ≠ "A") ∧
    c4wResult.secrets = c4wState.secrets.filter (fun kv => kv.1 ≠ keyName "A") ∧
    getApiKey "A" c4wResult = none ∧
    (getActiveProfileName c4wState = "A" →
      (∀ first rest, c4wResult.profiles = first :: rest →
        c4wResult.activeProfile = first.name) ∧
      (c4wResult.profiles = [] → c4wResult.activeProfile = "A")) ∧
    (getActiveProfileName c4wState ≠ "A" →
      c4wResult.activeProfile = getActiveProfileName c4wState) :=
  (c4_delete_amended "A" c4wState).2 c4wResult (by decide)

/-!
## Lemmas about the reasoning-output cleaner
-/

lemma dropWhile_dropWhile (p : Char → Bool) (l : List Char) :
    (l.dropWhile p).dropWhile p = l.dropWhile p := by
  induction l with
  | nil => rfl
  | cons a t ih =>
      rw [List.dropWhile_cons]
      by_cases h : p a
      · rw [if_pos h]
        exact ih
      · rw [if_neg h, List.dropWhile_cons, if_neg h]

lemma dropWhile_head_false (p : Char → Bool) :
    ∀ (l : List Char) (c : Char) (t : List Char), l.dropWhile p = c :: t → p c = false := by
  intro l
  induction l with
  | nil =>
      intro c t h
      exact List.noConfusion h
  | cons a u ih =>
      intro c t h
      rw [List.dropWhile_cons] at h
      by_cases hp : p a
      · rw [if_pos hp] at h
        exact ih c t h
      · rw [if_neg hp] at h
        injection h with h1 _
        subst h1
        simpa using hp

lemma dropWhile_concat_neg (p : Char → Bool) (c : Char) (hc : p c = false) :
    ∀ (u : List Char), ∃ d, (u ++ [c]).dropWhile p = d ++ [c] := by
  intro u
  induction u with
  | nil =>
      refine ⟨[], ?_⟩
      simp [List.dropWhile_cons, hc]
  | cons a u ih =>
      obtain ⟨d, hd⟩ := ih
      rw [List.cons_append, List.dropWhile_cons]
      by_cases hp : p a
      · rw [if_pos hp]
        exact ⟨d, hd⟩
      · rw [if_neg hp]
        exact ⟨a :: u, rfl⟩

lemma trimChars_idem (l : List Char) : trimChars (trimChars l) = trimChars l := by
  unfold trimChars
  cases hA : l.dropWhile jsWs with
  | nil => simp
  | cons c t =>
      have hc : jsWs c = false := dropWhile_head_false jsWs l c t hA
      obtain ⟨d, hd⟩ := dropWhile_concat_neg jsWs c hc t.reverse
      rw [List.reverse_cons, hd]
      have hrev : (d ++ [c]).reverse = c :: d.reverse := by simp
      rw [hrev]
      rw [List.dropWhile_cons, if_neg (by simp [hc])]
      have hrev2 : (c :: d.reverse).reverse = d ++ [c] := by simp
      rw [hrev2]
      rw [← hd, dropWhile_dropWhile, hd]
      exact hrev

lemma removeThinkAux_no_segment :
    ∀ (fuel : Nat) (l : List Char), hasThinkSegment l = false → removeThinkAux fuel l = l := by
  intro fuel
  induction fuel with
  | zero =>
      intro l _
      rfl
  | succ fuel ih =>
      intro l h
      cases l with
      | nil => rfl
      | cons c cs =>
          simp only [hasThinkSegment, Bool.or_eq_false_iff] at h
          obtain ⟨h1, h2⟩ := h
          simp only [removeThinkAux]
          cases hopen : stripTagCI openTag (c :: cs) with
          | none =>
              rw [ih cs h2]
          | some r =>
              rw [hopen] at h1
              dsimp only at h1
              cases hclose : findCloseTag r with
              | some rr =>
                  rw [hclose] at h1
                  simp at h1
              | none =>
                  rw [ih cs h2]
                  dsimp only
                  rw [hclose]

lemma removeThink_no_segment (l : List Char) (h : hasThinkSegment l = false) :
    removeThink l = l :=
  removeThinkAux_no_segment _ l h

/-- **C7 counterexample.**  Removing a `<think>...</think>` segment can
splice the surrounding fragments into a new segment: one cleaning pass of
this input leaves `"<think>B</think>"`, a second pass removes it, so
`clean (clean x) ≠ clean x`. -/
theorem c7_counterexample :
    cleanThinkTags "<think<think>A</think>>B</think>" = "<think>B</think>" ∧
    cleanThinkTags (cleanThinkTags "<think<think>A</think>>B</think>") = "" ∧
    cleanThinkTags (cleanThinkTags "<think<think>A</think>>B</think>") ≠
      cleanThinkTags "<think<think>A</think>>B</think>" := by
  decide

/-- **C7 (amended).**  `cleanThinkTags` is idempotent on every input whose
cleaned form contains no remaining case-insensitive `<think>...</think>`
segment — in particular, applying it to already-clean text is a no-op.  It
is **not** idempotent in general: removing a segment can splice the
surrounding text into a new segment (see the counterexample). -/
theorem c7_clean_idempotent_amended (x : String)
    (h : hasThinkSegment (cleanThinkTags x).data = false) :
    cleanThinkTags (cleanThinkTags x) = cleanThinkTags x := by
  have hdata : (cleanThinkTags x).data = trimChars (removeThink x.data) := rfl
  show (trimChars (removeThink (cleanThinkTags x).data)).asString = cleanThinkTags x
  rw [hdata] at h ⊢
  rw [removeThink_no_segment _ h, trimChars_idem]
  rfl

/-- Witness for C7 (amended): a concrete input whose cleaned form has no
remaining segment. -/
theorem c7_clean_idempotent_amended_witness :
    hasThinkSegment (cleanThinkTags "  a <think>b\n c</think> d ").data = false ∧
    cleanThinkTags (cleanThinkTags "  a <think>b\n c</think> d ") =
      cleanThinkTags "  a <think>b\n c</think> d " :=
  ⟨by decide, c7_clean_idempotent_amended "  a <think>b\n c</think> d " (by decide)⟩

/-- **C6 counterexample.**  A whitespace-only content `" "` is non-empty
and cleans to the empty string, yet both backends return an empty `ok`
result instead of failing (the code tests `content.trim().length > 0`, not
raw non-emptiness). -/
theorem c6_counterexample :
    (" " : String) ≠ "" ∧
    cleanThinkTags " " = "" ∧
    openAIHandleContent (some " ") = .ok "" ∧
    ollamaHandleContent " " = .ok "" := by
  decide

/-- **C6 (amended).**  When the extracted content is non-whitespace (its
trim is non-empty) and cleaning yields the empty string, both the
chat-completion and the local-chat `translate` fail with the
reasoning-only error; when the cleaned content is non-empty, both return
the cleaned content.  (Whitespace-only non-empty content instead yields an
empty-string success.) -/
theorem c6_reasoning_only_amended :
    ∀ (c : String),
      (jsTrim c ≠ "" → cleanThinkTags c = "" →
        openAIHandleContent (some c) = .error "Translation Empty (Reasoning only)" ∧
        ollamaHandleContent c = .error "Translation Empty (Reasoning only)") ∧
      (cleanThinkTags c ≠ "" →
        openAIHandleContent (some c) = .ok (cleanThinkTags c) ∧
        ollamaHandleContent c = .ok (cleanThinkTags c)) := by
  intro c
  have hz : c = "" → cleanThinkTags c = "" := by
    intro h
    subst h
    rfl
  have hz2 : c = "" → jsTrim c = "" := by
    intro h
    subst h
    rfl
  constructor
  · intro ht hcl
    have hc : c ≠ "" := fun h => ht (hz2 h)
    constructor
    · simp only [openAIHandleContent]
      rw [if_neg hc, if_pos ⟨hcl, ht⟩]
    · simp only [ollamaHandleContent]
      rw [if_neg hc, if_pos ⟨hcl, ht⟩]
  · intro hcl
    have hc : c ≠ "" := fun h => hcl (hz h)
    have hcond : ¬(cleanThinkTags c = "" ∧ jsTrim c ≠ "") := fun hand => hcl hand.1
    constructor
    · simp only [openAIHandleContent]
      rw [if_neg hc, if_neg hcond]
    · simp only [ollamaHandleContent]
      rw [if_neg hc, if_neg hcond]

/-- Witness for C6 (amended): a reasoning-only content and a plain one. -/
theorem c6_reasoning_only_amended_witness :
    (openAIHandleContent (some "<think>x</think>") =
        .error "Translation Empty (Reasoning only)" ∧
      ollamaHandleContent "<think>x</think>" =
        .error "Translation Empty (Reasoning only)") ∧
    (openAIHandleContent (some "hello") = .ok (cleanThinkTags "hello") ∧
      ollamaHandleContent "hello" = .ok (cleanThinkTags "hello")) :=
  ⟨(c6_reasoning_only_amended "<think>x</think>").1 (by decide) (by decide),
   (c6_reasoning_only_amended "hello").2 (by decide)⟩

/-!
## Lemmas about the orchestrator loop
-/

lemma processCell_skip (b : String → String) (s : OrchState) (c : String)
    (h : hasChinese c = true) :
    processCell b s c = { s with skippedCount := s.skippedCount + 1 } := by
  simp [processCell, h]

lemma processCell_backendCalls (b : String → String) (s : OrchState) (c : String) :
    (processCell b s c).backendCalls = s.backendCalls ∨
    ((processCell b s c).backendCalls = s.backendCalls ++ [c] ∧ hasChinese c = false) := by
  by_cases h1 : hasChinese c
  · left
    simp [processCell, h1]
  · by_cases h2 : jsTrim c = ""
    · left
      simp [processCell, h1, h2]
    · cases h3 : cacheLookup s.cache c with
      | some v =>
          left
          simp [processCell, h1, h2, h3]
      | none =>
          right
          refine ⟨by simp [processCell, h1, h2, h3], by simpa using h1⟩

lemma processCell_cacheGets (b : String → String) (s : OrchState) (c : String) :
    (processCell b s c).cacheGets = s.cacheGets ∨
    ((processCell b s c).cacheGets = s.cacheGets ++ [c] ∧ hasChinese c = false) := by
  by_cases h1 : hasChinese c
  · left
    simp [processCell, h1]
  · by_cases h2 : jsTrim c = ""
    · left
      simp [processCell, h1, h2]
    · cases h3 : cacheLookup s.cache c with
      | some v =>
          right
          refine ⟨by simp [processCell, h1, h2, h3], by simpa using h1⟩
      | none =>
          right
          refine ⟨by simp [processCell, h1, h2, h3], by simpa using h1⟩

lemma processCells_calls (b : String → String) :
    ∀ (cells : List String) (s : OrchState) (t : String),
      (t ∈ (processCells b s cells).backendCalls →
        t ∈ s.backendCalls ∨ hasChinese t = false) ∧
      (t ∈ (processCells b s cells).cacheGets →
        t ∈ s.cacheGets ∨ hasChinese t = false) := by
  intro cells
  induction cells with
  | nil =>
      intro s t
      exact ⟨fun h => .inl h, fun h => .inl h⟩
  | cons c cs ih =>
      intro s t
      constructor
      · intro h
        rcases (ih (processCell b s c) t).1 h with h' | h'
        · rcases processCell_backendCalls b s c with hE | ⟨hE, hc⟩
          · rw [hE] at h'
            exact .inl h'
          · rw [hE] at h'
            rcases List.mem_append.mp h' with h'' | h''
            · exact .inl h''
            · have ht : t = c := by simpa using h''
              subst ht
              exact .inr hc
        · exact .inr h'
      · intro h
        rcases (ih (processCell b s c) t).2 h with h' | h'
        · rcases processCell_cacheGets b s c with hE | ⟨hE, hc⟩
          · rw [hE] at h'
            exact .inl h'
          · rw [hE] at h'
            rcases List.mem_append.mp h' with h'' | h''
            · exact .inl h''
            · have ht : t = c := by simpa using h''
              subst ht
              exact .inr hc
        · exact .inr h'

/-- **C9 counterexample.**  The single character U+9FA6 lies inside the
CJK Unified Ideographs block (U+4E00–U+9FFF), but `hasChinese` only tests
U+4E00–U+9FA5, so the unit is **not** skipped: the backend is called and
the cache consulted. -/
theorem c9_counterexample :
    (∀ ch ∈ c9text.data, 0x4e00 ≤ ch.toNat ∧ ch.toNat ≤ 0x9fff) ∧
    c9text.data ≠ [] ∧
    hasChinese c9text = false ∧
    (processCell (fun t => t) c9init c9text).backendCalls = [c9text] ∧
    (processCell (fun t => t) c9init c9text).cacheGets = [c9text] ∧
    (processCell (fun t => t) c9init c9text).skippedCount = 0 := by
  decide

/-- **C9 (amended).**  Any text unit containing at least one character in
the range U+4E00–U+9FA5 (the range `hasChinese` actually tests) is skipped
by the orchestrator loop — only the skip counter changes — and over a whole
run no such text is ever passed to the backend's `translate` or to the
cache. -/
theorem c9_skip_rule_amended :
    (∀ (backend : String → String) (s : OrchState) (text : String),
      hasChinese text = true →
      processCell backend s text = { s with skippedCount := s.skippedCount + 1 }) ∧
    (∀ (backend : String → String) (s : OrchState) (cells : List String) (t : String),
      t ∈ (processCells backend s cells).backendCalls →
        t ∈ s.backendCalls ∨ hasChinese t = false) ∧
    (∀ (backend : String → String) (s : OrchState) (cells : List String) (t : String),
      t ∈ (processCells backend s cells).cacheGets →
        t ∈ s.cacheGets ∨ hasChinese t = false) :=
  ⟨processCell_skip,
   fun b s cells t => (processCells_calls b cells s t).1,
   fun b s cells t => (processCells_calls b cells s t).2⟩

/-- Witness for C9 (amended): a Chinese cell is skipped with only the
counter changed; a non-Chinese cell that did reach the backend and the
cache satisfies the disjunction through its `hasChinese = false` side. -/
theorem c9_skip_rule_amended_witness :
    processCell (fun t => t) c9init "你好" =
      { c9init with skippedCount := c9init.skippedCount + 1 } ∧
    ("hello" ∈ c9init.backendCalls ∨ hasChinese "hello" = false) ∧
    ("hello" ∈ c9init.cacheGets ∨ hasChinese "hello" = false) :=
  ⟨c9_skip_rule_amended.1 (fun t => t) c9init "你好" (by decide),
   c9_skip_rule_amended.2.1 (fun t => t) c9init ["hello"] "hello" (by decide),
   c9_skip_rule_amended.2.2 (fun t => t) c9init ["hello"] "hello" (by decide)⟩

end NotebookTranslate
